import Mathlib

/-!
Verification of the dlnap UPnP/DLNA client (`dlnap/__init__.py`).

The Python source is shallowly embedded over `List Char` (Python `str`
values).  Pure string manipulation is translated function by function;
network effects (`socket`, `urlopen`) are parameterised by oracles, and
Python exceptions are made explicit with `Except`/`Option` results.
The recursive XML parser `_xml2dict` is embedded with an explicit fuel
parameter (`none` = fuel exhausted, a model artefact only); its
termination on every input is proved below.
-/

set_option maxRecDepth 10000

namespace Dlnap

/-- Python `str.isspace` characters relevant to `str.strip()`. -/
def isPySpace (c : Char) : Bool :=
  c = ' ' || c = '\t' || c = '\n' || c = '\r' || c = '\x0b' || c = '\x0c'

/-- Python `s.lstrip()`. -/
def lstripL (l : List Char) : List Char := l.dropWhile isPySpace

/-- Python `s.strip()`: drop leading and trailing whitespace. -/
def pyStrip (l : List Char) : List Char :=
  ((l.dropWhile isPySpace).reverse.dropWhile isPySpace).reverse

/-- Python slicing `s[:-k]` (for `k ≥ 1`): keep all but the last `k`
characters, empty when `k ≥ len s`. -/
def pyDropEnd (k : Nat) (l : List Char) : List Char := l.take (l.length - k)

/-- Python `s.split(sep)` for a one-character separator `sep`. -/
def pySplit (sep : Char) : List Char → List (List Char)
  | [] => [[]]
  | a :: rest =>
    if a = sep then [] :: pySplit sep rest
    else
      match pySplit sep rest with
      | [] => [[a]]
      | h :: t => (a :: h) :: t

/-- Python substring test `pat in s` (`str.__contains__`). -/
def containsSub (s pat : List Char) : Bool :=
  if pat.isPrefixOf s then true
  else
    match s with
    | [] => false
    | _ :: rest => containsSub rest pat

/-- Helper for `replaceAll`, structurally recursive on a fuel that is
at least the length of the string (each step consumes at least one
character, so `s.length` fuel is always enough). -/
def replaceAllF (p : Char) (ps repl : List Char) : Nat → List Char → List Char
  | 0, s => s
  | n + 1, s =>
    if (p :: ps).isPrefixOf s then
      repl ++ replaceAllF p ps repl n (s.drop (ps.length + 1))
    else
      match s with
      | [] => []
      | c :: cs => c :: replaceAllF p ps repl n cs

/-- Python `s.replace(p :: ps, repl)`: replace every (left-to-right,
non-overlapping) occurrence of the nonempty pattern `p :: ps`. -/
def replaceAll (p : Char) (ps repl s : List Char) : List Char :=
  replaceAllF p ps repl s.length s

/-- The character-accumulating scan loop of `_get_tag_value` (lines 81-88):
accumulate characters of `x` into `value`; when the current character is
`'>'` and the accumulated value ends with `closing` (= `'</' + tag + '>'`),
strip `len tag + 2` characters, stop, and finally strip one more character
(the trailing `value[:-1]` of line 89).  Returns the final value and the
remainder `x[i+1:]`. -/
def scanValue (closing : List Char) (acc : List Char) : List Char → List Char × List Char
  | [] => (pyDropEnd 1 acc, [])
  | c :: rs =>
    if c = '>' ∧ closing.isSuffixOf (acc ++ [c]) then
      (pyDropEnd 1 (pyDropEnd (closing.length - 1) (acc ++ [c])), rs)
    else
      scanValue closing (acc ++ [c]) rs

/-- The scan position after skipping a leading `<? ...` processing
instruction (lines 40-43). -/
def piSkip (x : List Char) : Nat :=
  if ['<', '?'].isPrefixOf x then 2 + ((x.drop 2).takeWhile (fun c => c ≠ '<')).length
  else 0

/-- The body of `_get_tag_value` after the processing-instruction skip:
`x` is the stripped input, `i1` the scan position (lines 46-89). -/
def gtvCore (x : List Char) (i1 : Nat) : List Char × List Char × List Char :=
  let xi := x.drop i1
  if ['<', '/'].isPrefixOf xi then
    -- closing tag `</tag>` (lines 46-55)
    let t0 := (x.drop (i1 + 2)).takeWhile (fun c => c ≠ '>')
    let tag := t0.takeWhile (fun c => c ≠ ' ')
    (pyStrip tag, [], x.drop (i1 + 2 + t0.length + 1))
  else if ¬ (['<'].isPrefixOf xi) then
    -- not xml: treat as a value (lines 58-59)
    ([], xi, [])
  else
    -- open tag (lines 61-89)
    let t0 := (x.drop (i1 + 1)).takeWhile (fun c => c ≠ '>')
    let tag := t0.takeWhile (fun c => c ≠ ' ')
    let i2 := i1 + 1 + t0.length + 1
    let closed := ('<' :: (tag ++ ['>'])) ++ ['N', 'o', 'n', 'e'] ++ ('<' :: '/' :: (tag ++ ['>']))
    -- self-closing rewrite `<tag />` -> `<tag>None</tag>` (lines 75-79);
    -- note: the scan index `i2` is NOT adjusted after the replacement
    let x2 := if ('<' :: (tag ++ [' ', '/', '>'])).isPrefixOf x then
        replaceAll '<' (tag ++ [' ', '/', '>']) closed x
      else x
    let closing := '<' :: '/' :: (tag ++ ['>'])
    let vr := scanValue closing [] (x2.drop i2)
    (pyStrip tag, vr.1, vr.2)

/-- `_get_tag_value(x)` (lines 24-89, always called with `i = 0`):
returns `(tag, value, remainder)`. -/
def getTagValue (x0 : List Char) : List Char × List Char × List Char :=
  gtvCore (pyStrip x0) (piSkip (pyStrip x0))

/-- A child of an XML-dictionary entry: a leaf string or a nested
dictionary (the mutable-dict tree of `_xml2dict`). -/
inductive Child where
  | leaf (s : List Char)
  | node (d : List (List Char × List Child))
deriving Repr

/-- The dictionary produced by `_xml2dict`: tag name to ordered children. -/
abbrev XDict := List (List Char × List Child)

/-- `if tag not in _dict: _dict[tag] = []` (lines 119-120): Python dicts
preserve insertion order, so a fresh key is appended. -/
def addKey (tag : List Char) (d : XDict) : XDict :=
  if d.any (fun kv => kv.1 = tag) then d else d ++ [(tag, [])]

/-- `_dict[tag].append c` for a key already present. -/
def appendAt (tag : List Char) (c : Child) (d : XDict) : XDict :=
  d.map (fun kv => if kv.1 = tag then (kv.1, kv.2 ++ [c]) else kv)

/-- `_xml2dict`'s while loop (lines 114-129), with explicit fuel;
`none` means the fuel ran out (never the Python behaviour: termination
is proved below). -/
def xml2dictF : Nat → XDict → List Char → Option XDict
  | 0, _, _ => none
  | n + 1, d, x =>
    if x = [] then some d
    else
      let tvr := getTagValue x
      let tag := tvr.1
      let value := pyStrip tvr.2.1
      let rest := tvr.2.2
      let isXml := (getTagValue value).1
      let d1 := addKey tag d
      if isXml = [] then
        if value = [] then xml2dictF n d1 rest
        else xml2dictF n (appendAt tag (Child.leaf value) d1) rest
      else
        match xml2dictF n [] value with
        | none => none
        | some sub => xml2dictF n (appendAt tag (Child.node sub) d1) rest

/-! ## `_xpath` (lines 132-154) -/

/-- The Python exceptions that can escape `_xpath`. -/
inductive PyErr where
  | keyError      -- `s[a]` on a dict without key `a`
  | typeError     -- indexing a string with a string, or hashing an unhashable object
  | indexError    -- `[0]` on an empty list
  | valueError    -- `a, aval = attr.split('=')` with not exactly two parts
  | exception     -- a plain `raise Exception(...)`
deriving Repr, DecidableEq

/-- `xml_dict[tag]` on a dict: first (unique) matching key. -/
def keyLookup (tag : List Char) (d : XDict) : Option (List Child) :=
  (d.find? (fun kv => kv.1 = tag)).map (fun kv => kv.2)

/-- Python `v == [aval]` where `aval` is a string: true exactly for a
one-element list holding an equal leaf string. -/
def eqSingletonLeaf (v : List Child) (aval : List Char) : Bool :=
  match v with
  | [Child.leaf s] => s = aval
  | _ => false

/-- The predicate loop `for s in xml_dict[tag]: if s[a] == [aval]: ... break`
(lines 148-151).  `ok (some c)` = loop broke at child `c`; `ok none` = loop
finished without break; `error` = `s[a]` raised. -/
def findMatch (a aval : List Char) : List Child → Except PyErr (Option Child)
  | [] => .ok none
  | Child.leaf _ :: _ => .error .typeError
  | Child.node d' :: rest =>
    match keyLookup a d' with
    | none => .error .keyError
    | some v =>
      if eqSingletonLeaf v aval then .ok (some (Child.node d'))
      else findMatch a aval rest

/-- One iteration of the `for p in path.split('/')` loop body
(lines 141-153) applied to the current value `cur` and segment `seg`.
`ok none` = the early `return None` of line 144; `ok (some c)` = the loop
continues with value `c`. -/
def segApply (cur : Child) (seg : List Char) : Except PyErr (Option Child) :=
  let tagAttr := pySplit '@' seg
  let tag := tagAttr.headD []
  let attr := tagAttr.getD 1 []
  match cur with
  | Child.leaf s =>
    -- `tag not in xml_dict` on a string is a substring test
    if containsSub s tag then
      if attr = [] then .error .typeError       -- `s[tag]` : str indexed by str
      else
        match pySplit '=' attr with
        | [_, _] => .error .typeError           -- `for s in xml_dict[tag]` : str indexed by str
        | _ => .error .valueError
    else .ok none
  | Child.node d =>
    match keyLookup tag d with
    | none => .ok none
    | some children =>
      if attr = [] then
        match children with
        | [] => .error .indexError              -- `xml_dict[tag][0]` on an empty list
        | c :: _ => .ok (some c)
      else
        match pySplit '=' attr with
        | [a, aval] =>
          match findMatch a aval children with
          | .error e => .error e
          | .ok (some c) => .ok (some c)
          | .ok none => .ok (some cur)          -- no break: `xml_dict` left unchanged
        | _ => .error .valueError

/-- The segment loop of `_xpath`. -/
def xpathSegs : List (List Char) → Child → Except PyErr (Option Child)
  | [], cur => .ok (some cur)
  | seg :: rest, cur =>
    match segApply cur seg with
    | .error e => .error e
    | .ok none => .ok none
    | .ok (some c) => xpathSegs rest c

/-- `_xpath(xml_dict, path)` (lines 132-154). -/
def xpathRun (d : XDict) (path : List Char) : Except PyErr (Option Child) :=
  xpathSegs (pySplit '/' path) (Child.node d)

/-! ## Python `==` and `str()` on parsed values -/

mutual
/-- Python `==` on two children (str vs str, dict vs dict). -/
def childBeq : Child → Child → Bool
  | .leaf a, .leaf b => a == b
  | .node d1, .node d2 => dictBeq d1 d2
  | _, _ => false
/-- Python `==` on two dicts of the parser's shape (keys are compared in
order; the parser never produces duplicate keys). -/
def dictBeq : XDict → XDict → Bool
  | [], [] => true
  | (k1, v1) :: r1, (k2, v2) :: r2 => k1 == k2 && childrenBeq v1 v2 && dictBeq r1 r2
  | _, _ => false
/-- Python `==` on two child lists. -/
def childrenBeq : List Child → List Child → Bool
  | [], [] => true
  | a :: as, b :: bs => childBeq a b && childrenBeq as bs
  | _, _ => false
end

/-- Separator `", "` used by Python container reprs. -/
def commaSep : List Char := [',', ' ']

mutual
/-- Python `repr()` of a child (string repr simplified to single quotes). -/
def reprChild : Child → List Char
  | .leaf s => '\'' :: s ++ ['\'']
  | .node d => reprDict d
def reprDict : XDict → List Char
  | d => '{' :: reprEntries d ++ ['}']
def reprEntries : XDict → List Char
  | [] => []
  | [(k, v)] => '\'' :: k ++ '\'' :: ':' :: ' ' :: reprChildren v
  | (k, v) :: rest => ('\'' :: k ++ '\'' :: ':' :: ' ' :: reprChildren v) ++ commaSep ++ reprEntries rest
def reprChildren : List Child → List Char
  | l => '[' :: reprItems l ++ [']']
def reprItems : List Child → List Char
  | [] => []
  | [c] => reprChild c
  | c :: rest => reprChild c ++ commaSep ++ reprItems rest
end

/-- Python `str()` of an optional value interpolated by `'{}'.format(..)`:
`None` prints as `None`, a string prints as itself, a dict prints as its
repr. -/
def pyStrOptChild : Option Child → List Char
  | none => "None".data
  | some (.leaf s) => s
  | some (.node d) => reprDict d

/-- Python `str()` of an optional int. -/
def pyStrOptNat : Option Nat → List Char
  | none => "None".data
  | some n => (Nat.repr n).data

/-! ## `_send_tcp` (lines 182-203) -/

/-- `_unescape_xml` (lines 176-178). -/
def unescapeXml (s : List Char) : List Char :=
  replaceAll '&' "quot;".data "\"".data
    (replaceAll '&' "gt;".data ">".data
      (replaceAll '&' "lt;".data "<".data s))

/-- The `ignore_until_xml` preprocessing of `_xml2dict` (lines 111-112):
`''.join(re.findall(".*?(<.*)", s, re.M))` keeps, for every line containing
`<`, the part from the first `<` to the end of the line, and drops
everything else (including the newlines). -/
def ignoreUntilXml (s : List Char) : List Char :=
  ((pySplit '\n' s).map (fun line => line.dropWhile (fun c => c ≠ '<'))).flatten

/-- Levels of the Python `logging` calls that the model records. -/
inductive LogLevel where
  | error | warning | info | debug
deriving Repr, DecidableEq

/-- The value `_send_tcp` returns: the parsed dict on success, the empty
string after a swallowed exception. -/
inductive SendResult where
  | str (s : List Char)
  | dict (d : XDict)
deriving Repr

/-- The SOAP fault path probed by `_send_tcp` (line 198). -/
def faultPath : List Char := "s:Envelope/s:Body/s:Fault/detail/UPnPError/errorDescription".data

/-- `_send_tcp` (lines 182-203).  The network is abstracted by `net`:
`none` models any transport-level exception (connect refused, timeout,
send/recv failure, decode error); `some s` is the decoded response text.
The result pairs the returned value with the log records emitted; `none`
is only ever produced by fuel exhaustion of the parser model. -/
def sendTcp (fuel : Nat) (net : Option (List Char)) :
    Option (SendResult × List (LogLevel × Child)) :=
  match net with
  | none => some (.str [], [])
  | some dataStr =>
    match xml2dictF fuel [] (ignoreUntilXml (unescapeXml dataStr)) with
    | none => none
    | some d =>
      match xpathRun d faultPath with
      | .error _ => some (.str [], [])        -- a raising `_xpath` is swallowed too
      | .ok none => some (.dict d, [])
      | .ok (some desc) => some (.dict d, [(LogLevel.error, desc)])

/-! ## URNs and SOAP packet assembly (lines 15-20, 280-336) -/

def natRepr (n : Nat) : List Char := (Nat.repr n).data

def URN_AVTransport : List Char := "urn:schemas-upnp-org:service:AVTransport:1".data

def URN_AVTransport_Fmt (v : Nat) : List Char :=
  "urn:schemas-upnp-org:service:AVTransport:".data ++ natRepr v

def URN_RenderingControl : List Char := "urn:schemas-upnp-org:service:RenderingControl:1".data

def URN_RenderingControl_Fmt (v : Nat) : List Char :=
  "urn:schemas-upnp-org:service:RenderingControl:".data ++ natRepr v

/-- `__file__` as interpolated into the User-Agent header: the module's
path, environment dependent; an opaque-to-the-claims constant. -/
def moduleFile : List Char := "dlnap/__init__.py".data

/-- `__version__` (line 4). -/
def moduleVersion : List Char := "0.15.0".data

/-- `DLNADevice` (lines 232-272), with the attributes `__init__` sets.
Strings extracted from parsed XML keep their parsed type (`Child`), as in
Python, where `_xpath` may hand back any node.  `location` is `none` while
the attribute is still unset (decode failed before line 249). -/
structure DLNADevice where
  ip : List Char
  ssdp_version : Nat
  port : Option Nat
  location : Option (List Char)
  name : Child
  control_url : Option Child
  rendering_control_url : Option Child
  has_av_transport : Bool
deriving Repr

/-- `_payload_from_template` (lines 280-296), with `data` values already
rendered to strings by `'{value}'.format`. -/
def payloadFromTemplate (action : List Char) (data : List (List Char × List Char))
    (urn : List Char) : List Char :=
  let fields := data.foldl
    (fun acc kv => acc ++ ('<' :: kv.1 ++ ['>']) ++ kv.2 ++ ('<' :: '/' :: kv.1 ++ ['>'])) []
  "<?xml version=\"1.0\" encoding=\"utf-8\"?>\n         <s:Envelope xmlns:s=\"http://schemas.xmlsoap.org/soap/envelope/\" s:encodingStyle=\"http://schemas.xmlsoap.org/soap/encoding/\">\n            <s:Body>\n               <u:".data
    ++ action ++ " xmlns:u=\"".data ++ urn ++ "\">\n                  ".data
    ++ fields
    ++ "\n               </u:".data ++ action ++ ">\n            </s:Body>\n         </s:Envelope>".data

/-- The actions routed to the RenderingControl endpoint (line 314). -/
def rcActions : List (List Char) := ["SetVolume".data, "SetMute".data, "GetVolume".data]

/-- The endpoint a given action is sent to (lines 314-319). -/
def urlOf (dev : DLNADevice) (action : List Char) : Option Child :=
  if action ∈ rcActions then dev.rendering_control_url else dev.control_url

/-- The namespace URN a given action uses (lines 314-319). -/
def urnOf (dev : DLNADevice) (action : List Char) : List Char :=
  if action ∈ rcActions then URN_RenderingControl_Fmt dev.ssdp_version
  else URN_AVTransport_Fmt dev.ssdp_version

/-- `'\r\n'.join` of the header/body lines (line 322). -/
def joinCRLF : List (List Char) → List Char
  | [] => []
  | [l] => l
  | l :: rest => l ++ ['\r', '\n'] ++ joinCRLF rest

/-- `_create_packet` (lines 308-336). -/
def createPacket (dev : DLNADevice) (action : List Char)
    (data : List (List Char × List Char)) : List Char :=
  let url := urlOf dev action
  let urn := urnOf dev action
  let payload := payloadFromTemplate action data urn
  joinCRLF [
    "POST ".data ++ pyStrOptChild url ++ " HTTP/1.1".data,
    "User-Agent: ".data ++ moduleFile ++ "/".data ++ moduleVersion,
    "Accept: */*".data,
    "Content-Type: text/xml; charset=\"utf-8\"".data,
    "HOST: ".data ++ dev.ip ++ ":".data ++ pyStrOptNat dev.port,
    "Content-Length: ".data ++ natRepr payload.length,
    "SOAPACTION: \"".data ++ urn ++ "#".data ++ action ++ "\"".data,
    "Connection: close".data,
    [],
    payload]

/-- The packet built by `set_volume` (lines 380-388). -/
def setVolumePacket (dev : DLNADevice) (volume instance_id : Nat) : List Char :=
  createPacket dev "SetVolume".data
    [("InstanceID".data, natRepr instance_id),
     ("DesiredVolume".data, natRepr volume),
     ("Channel".data, "Master".data)]

/-! ## `DLNADevice.__init__` helpers: `_get_location_url`, `_get_port` -/

/-- Case-insensitive prefix match of a lowercase pattern. -/
def ciIsPr : List Char → List Char → Bool
  | [], _ => true
  | _ :: _, [] => false
  | p :: ps, c :: cs => p = c.toLower && ciIsPr ps cs

/-- Scan a line (`.*?` cannot cross a newline) for the first `':'`
followed by at least one digit; return the value of the maximal digit
run (the `:(\d+)` of `_get_port`'s regex). -/
def findColonDigits : List Char → Option Nat
  | [] => none
  | c :: rest =>
    if c = '\n' then none
    else if c = ':' ∧ (rest.takeWhile Char.isDigit) ≠ [] then
      some ((rest.takeWhile Char.isDigit).foldl (fun a d => 10 * a + (d.toNat - 48)) 0)
    else findColonDigits rest

/-- The first match of `http://.*?:(\d+).*` (line 163): try every start
position left to right; at an `http://`, look for `:` + digits within the
same line. -/
def findPort : List Char → Option Nat
  | [] => none
  | c :: rest =>
    if "http://".data.isPrefixOf (c :: rest) then
      match findColonDigits ((c :: rest).drop 7) with
      | some n => some n
      | none => findPort rest
    else findPort rest

/-- `_get_port` (lines 157-164). -/
def getPort (location : List Char) : Nat := (findPort location).getD 80

/-- The first match of `\n(?i)location:\s*(.*)\r\s*` (line 212, with the
pre-3.11 global-`(?i)` semantics of the supported Pythons): after a
newline and a case-insensitive `location:`, the capture runs from the
first non-whitespace to the last `\r` of that line.  (The rare case of
`\s*` spanning line breaks is modelled line-locally.) -/
def findLoc : List Char → Option (List Char)
  | [] => none
  | c :: rest =>
    if c = '\n' ∧ ciIsPr "location:".data rest then
      let line := (rest.drop 9).takeWhile (fun ch => ch ≠ '\n')
      if '\r' ∈ line then
        some (((line.reverse.dropWhile (fun ch => ch ≠ '\r')).tail.reverse).dropWhile isPySpace)
      else findLoc rest
    else findLoc rest

/-- `_get_location_url` (lines 206-215): first regex match or `''`. -/
def getLocationUrl (raw : List Char) : List Char := (findLoc raw).getD []

/-! ## `DLNADevice.__init__` (lines 235-272) -/

def friendlyNamePath : List Char := "root/device/friendlyName".data

def controlUrlPath (urn : List Char) : List Char :=
  "root/device/serviceList/service@serviceType=".data ++ urn ++ "/controlURL".data

/-- The attribute defaults set before the `try` block (lines 239-245). -/
def defaultDevice (ip : List Char) : DLNADevice :=
  { ip := ip, ssdp_version := 1, port := none, location := none,
    name := Child.leaf "Unknown".data, control_url := none,
    rendering_control_url := none, has_av_transport := false }

/-- `DLNADevice.__init__` (lines 235-272).  `raw = none` models
`raw.decode()` raising; `fetch` models `urlopen(location).read().decode()`
(`none` = any of those raising).  Each xpath error models the
corresponding Python exception reaching the `except` of line 271, which
keeps every attribute assigned so far.  A `none` result is fuel
exhaustion of the parser model only. -/
def deviceInitF (fuel : Nat) (raw : Option (List Char))
    (fetch : List Char → Option (List Char)) (ip : List Char) : Option DLNADevice :=
  let d0 := defaultDevice ip
  match raw with
  | none => some d0
  | some rawStr =>
    let loc := getLocationUrl rawStr
    let d1 := { d0 with location := some loc, port := some (getPort loc) }
    match fetch loc with
    | none => some d1
    | some descRaw =>
      match xml2dictF fuel [] descRaw with
      | none => none
      | some desc =>
        match xpathRun desc friendlyNamePath with
        | .error _ => some d1
        | .ok nm =>
          let d2 := { d1 with name := nm.getD (Child.leaf "Unknown".data) }
          match xpathRun desc (controlUrlPath URN_AVTransport) with
          | .error _ => some d2
          | .ok cu =>
            let d3 := { d2 with control_url := cu }
            match xpathRun desc (controlUrlPath URN_RenderingControl) with
            | .error _ => some d3
            | .ok ru =>
              some { d3 with rendering_control_url := ru, has_av_transport := cu.isSome }

/-! ## Discovery (lines 431-478) -/

/-- Python `==` on two devices: `DLNADevice.__eq__` (lines 277-278)
compares `(name, ip)` only. -/
def eqDev (a b : DLNADevice) : Bool :=
  childBeq a.name b.name && a.ip == b.ip

/-- Python `hash(device)`.  `DLNADevice` overrides `__eq__` (line 277) and
defines no `__hash__`, so the Python 3 data model sets `__hash__ = None`
on the class and `hash()` raises `TypeError: unhashable type` for every
instance. -/
def devHash (_ : DLNADevice) : Except PyErr Nat := Except.error PyErr.typeError

/-- One datagram-processing step of `_discovery` (lines 468-470) against
the `devices` set.  `device not in devices` hashes the device first (even
when the set is empty), so with the unhashable `DLNADevice` it raises
`TypeError` before any comparison; the dedup-and-add path below the hash
is unreachable and is kept only to mirror the source text (the `Bool`
records whether the callback of line 469 was invoked). -/
def dedupStep (devices : List DLNADevice) (dev : DLNADevice) :
    Except PyErr (List DLNADevice × Bool) :=
  match devHash dev with
  | .error e => .error e
  | .ok _ =>
    if devices.any (fun e => eqDev e dev) then .ok (devices, false)
    else .ok (devices ++ [dev], true)

/-- One `select.select` outcome inside the discovery loop: an optional
readable datagram (decoded text or decode failure, and sender ip), and
whether the socket is in the exceptional set. -/
structure Tick where
  readable : Option (Option (List Char) × List Char)
  exceptional : Bool

/-- The initial value of the `keep_scanning` flag (line 450). -/
def keepScanningInit : Bool := false

/-- The `while keep_scanning and time.monotonic() < scan_for` loop of
`_discovery` (lines 462-472).  `ticks` enumerates the select outcomes the
clock still admits before the deadline; in blocking mode nothing ever
flips the flag, so it is a constant parameter.  An uncaught Python
exception (the `TypeError` from the membership test of line 468, or the
`raise Exception('Getting response failed')` of line 472) escapes the
loop as `Except.error`. -/
def discoveryLoop (fuel : Nat) (fetch : List Char → Option (List Char)) (ssdpVer : Nat)
    (ks : Bool) : List Tick → List DLNADevice → Option (Except PyErr (List DLNADevice))
  | ticks, devices =>
    if ks then
      match ticks with
      | [] => some (.ok devices)
      | t :: rest =>
        match t.readable with
        | some (raw, addr) =>
          match deviceInitF fuel raw fetch addr with
          | none => none
          | some dev0 =>
            let dev := { dev0 with ssdp_version := ssdpVer }
            match dedupStep devices dev with
            | .error e => some (.error e)
            | .ok (devices1, _) => discoveryLoop fuel fetch ssdpVer ks rest devices1
        | none =>
          if t.exceptional then some (.error .exception)
          else discoveryLoop fuel fetch ssdpVer ks rest devices
    else some (.ok devices)

/-- `get_dlnas(..., blocking=True)` (lines 431-476): run `_discovery`
inline, starting from the empty device set with the `keep_scanning` flag
as initialised on line 450. -/
def getDlnasBlocking (fuel : Nat) (fetch : List Char → Option (List Char))
    (ssdpVer : Nat) (ticks : List Tick) : Option (Except PyErr (List DLNADevice)) :=
  discoveryLoop fuel fetch ssdpVer keepScanningInit ticks []

/-! ## Auxiliary definitions used by the theorems below -/

/-- A plain tag name: nonempty, no XML delimiters, no whitespace. -/
def validTag (t : List Char) : Prop :=
  t ≠ [] ∧ ∀ c ∈ t, c ≠ '>' ∧ c ≠ ' ' ∧ c ≠ '/' ∧ c ≠ '?' ∧ c ≠ '<' ∧ isPySpace c = false

instance (t : List Char) : Decidable (validTag t) := by
  unfold validTag
  infer_instance

/-- The string `"<t></t>"`, right-nested for convenient decomposition. -/
def elemOf (t : List Char) : List Char :=
  '<' :: (t ++ ('>' :: ('<' :: ('/' :: (t ++ ['>'])))))

/-- A concrete device used by the C2 theorem. -/
def devA : DLNADevice :=
  { ip := "192.168.1.50".data, ssdp_version := 1, port := some 80, location := none,
    name := Child.leaf "TV".data, control_url := some (Child.leaf "/ctrlA".data),
    rendering_control_url := none, has_av_transport := true }

/-- A second device with the same (name, ip) but another control URL. -/
def devB : DLNADevice :=
  { ip := "192.168.1.50".data, ssdp_version := 1, port := some 80, location := none,
    name := Child.leaf "TV".data, control_url := some (Child.leaf "/ctrlB".data),
    rendering_control_url := none, has_av_transport := true }

/-- A concrete SOAP fault response. -/
def faultResponse : List Char :=
  "<s:Envelope><s:Body><s:Fault><detail><UPnPError><errorDescription>err</errorDescription></UPnPError></detail></s:Fault></s:Body></s:Envelope>".data

/-- The parse of `faultResponse`. -/
def faultDict : XDict :=
  [("s:Envelope".data, [Child.node
    [("s:Body".data, [Child.node
      [("s:Fault".data, [Child.node
        [("detail".data, [Child.node
          [("UPnPError".data, [Child.node
            [("errorDescription".data, [Child.leaf "err".data])]])]])]])]])]])]

/-- A discovery response carrying a LOCATION header. -/
def rawResponse : List Char := "NOTIFY\r\nLOCATION: http://h:80/d.xml\r\n".data

/-- A description document with a friendlyName but a service entry that
lacks the `serviceType` key, so control-URL extraction raises KeyError. -/
def descNoServiceType : List Char :=
  "<root><device><friendlyName>TV</friendlyName><serviceList><service><x>1</x></service></serviceList></device></root>".data

/-- The byte length of the UTF-8 encoding that `payload.encode('utf-8')`
transmits (line 192). -/
def utf8Len (l : List Char) : Nat := l.foldl (fun a c => a + c.utf8Size) 0

/-! ## Concrete evaluations of the embedded functions -/

example : getTagValue "<a/>".data = ("a/".data, [], []) := by decide
example : getTagValue "<a />".data = ("a".data, "ne".data, []) := by decide
example : getTagValue "<a>hello</a>".data = ("a".data, "hello".data, []) := by decide
example : xml2dictF 10 [] "<a/>".data = some [("a/".data, [])] := by rfl
example : xml2dictF 10 [] "<a />".data = some [("a".data, [Child.leaf "ne".data])] := by rfl
example : xml2dictF 10 [] "<a></a>".data = some [("a".data, [])] := by rfl
example : xml2dictF 10 [] "<d><e>value4</e></d>".data
    = some [("d".data, [Child.node [("e".data, [Child.leaf "value4".data])]])] := by rfl

example :
    xpathRun [("a".data, [Child.node [("b".data, [Child.leaf "v".data])]])] "a/b".data
      = .ok (some (Child.leaf "v".data)) := by rfl
example : xpathRun [("a".data, [Child.leaf "v".data])] "zz".data = .ok none := by rfl
-- a predicate that matches no child leaves the current node unchanged
example :
    xpathRun [("t".data, [Child.node [("a".data, [Child.leaf "w".data])]])] "t@a=v".data
      = .ok (some (Child.node [("t".data, [Child.node [("a".data, [Child.leaf "w".data])]])])) := by
  rfl
-- a predicate over a child lacking the attribute key raises KeyError
example :
    xpathRun [("t".data, [Child.node [("x".data, [Child.leaf "1".data])]])] "t@a=v".data
      = .error .keyError := by rfl
-- `[0]` on a tag with an empty child list raises IndexError
example : xpathRun [("a".data, [])] "a".data = .error .indexError := by rfl

example : getLocationUrl "NOTIFY\r\nLOCATION: http://h:80/d.xml\r\n".data
    = "http://h:80/d.xml".data := by rfl
example : getPort "http://10.0.0.5:8200/desc.xml".data = 8200 := by rfl
example : getPort "http://10.0.0.5/desc.xml".data = 80 := by rfl

mutual
theorem childBeq_refl : ∀ a : Child, childBeq a a = true
  | .leaf a => by simp [childBeq]
  | .node d => by rw [childBeq]; exact dictBeq_refl d
theorem dictBeq_refl : ∀ d : XDict, dictBeq d d = true
  | [] => by rw [dictBeq]
  | (k, v) :: r => by rw [dictBeq]; simp [childrenBeq_refl v, dictBeq_refl r]
theorem childrenBeq_refl : ∀ l : List Child, childrenBeq l l = true
  | [] => by rw [childrenBeq]
  | a :: as => by rw [childrenBeq]; simp [childBeq_refl a, childrenBeq_refl as]
end

/-! ## Generic list lemmas -/

theorem isInfix_appendR {α : Type} {x b : List α} (a : List α) (h : x <:+: b) :
    x <:+: a ++ b := by
  obtain ⟨s, t, hst⟩ := h
  exact ⟨a ++ s, t, by rw [← hst]; simp [List.append_assoc]⟩

theorem isInfix_appendL {α : Type} {x a : List α} (b : List α) (h : x <:+: a) :
    x <:+: a ++ b := by
  obtain ⟨s, t, hst⟩ := h
  exact ⟨s, t ++ b, by rw [← hst]; simp [List.append_assoc]⟩

theorem isInfix_suffix_append {α : Type} (a x : List α) : x <:+: a ++ x :=
  ⟨a, [], by simp⟩

theorem suffix_joinCRLF_last : ∀ (ls : List (List Char)) (l : List Char),
    l <:+ joinCRLF (ls ++ [l])
  | [], l => by simp [joinCRLF]
  | [a], l => by
    show l <:+ joinCRLF [a, l]
    exact List.suffix_append _ _
  | a :: b :: ls, l => by
    have ih := suffix_joinCRLF_last (b :: ls) l
    show l <:+ a ++ ['\r', '\n'] ++ joinCRLF ((b :: ls) ++ [l])
    exact ih.trans (List.suffix_append _ _)

theorem mem_joinCRLF_infix : ∀ (ls : List (List Char)) (l : List Char),
    l ∈ ls → l <:+: joinCRLF ls
  | [], _, h => absurd h (List.not_mem_nil _)
  | [a], l, h => by
    rcases List.mem_singleton.mp h with rfl
    show l <:+: joinCRLF [l]
    exact List.infix_refl l
  | a :: b :: ls, l, h => by
    rcases List.mem_cons.mp h with rfl | h'
    · show l <:+: l ++ ['\r', '\n'] ++ joinCRLF (b :: ls)
      exact isInfix_appendL _ (isInfix_appendL _ (List.infix_refl l))
    · have ih := mem_joinCRLF_infix (b :: ls) l h'
      show l <:+: a ++ ['\r', '\n'] ++ joinCRLF (b :: ls)
      exact isInfix_appendR _ ih

/-! ## Parser measure lemmas

The discovery of `_xml2dict`'s termination measure: spaces strictly
decrease whenever the self-closing rewrite fires (the rewrite pattern
contains a space and its replacement does not), and otherwise the string
shrinks. -/

theorem spc_pyStrip_le (l : List Char) (c : Char) : (pyStrip l).count c ≤ l.count c := by
  unfold pyStrip
  rw [List.count_reverse]
  calc ((l.dropWhile isPySpace).reverse.dropWhile isPySpace).count c
      ≤ ((l.dropWhile isPySpace).reverse).count c :=
        (List.dropWhile_sublist _).count_le c
    _ = (l.dropWhile isPySpace).count c := List.count_reverse _ _
    _ ≤ l.count c := (List.dropWhile_sublist _).count_le c

theorem len_pyStrip_le (l : List Char) : (pyStrip l).length ≤ l.length := by
  unfold pyStrip
  rw [List.length_reverse]
  calc ((l.dropWhile isPySpace).reverse.dropWhile isPySpace).length
      ≤ ((l.dropWhile isPySpace).reverse).length := (List.dropWhile_sublist _).length_le
    _ = (l.dropWhile isPySpace).length := List.length_reverse _
    _ ≤ l.length := (List.dropWhile_sublist _).length_le

theorem dropWhile_head_not (p : Char → Bool) :
    ∀ l : List Char, l.dropWhile p = [] ∨ ∃ a t, l.dropWhile p = a :: t ∧ p a = false
  | [] => Or.inl rfl
  | a :: l => by
    by_cases h : p a
    · simpa [List.dropWhile, h] using dropWhile_head_not p l
    · exact Or.inr ⟨a, l, by simp [List.dropWhile, h], by simpa using h⟩

theorem dropWhile_eq_self_of_head {p : Char → Bool} {l : List Char}
    (h : ∀ a t, l = a :: t → p a = false) : l.dropWhile p = l := by
  cases l with
  | nil => rfl
  | cons a t => simp [List.dropWhile, h a t rfl]

theorem dropWhile_idem (p : Char → Bool) (l : List Char) :
    (l.dropWhile p).dropWhile p = l.dropWhile p := by
  rcases dropWhile_head_not p l with h | ⟨a, t, h, ha⟩
  · simp [h]
  · simp [h, List.dropWhile, ha]

theorem pyStrip_idem (l : List Char) : pyStrip (pyStrip l) = pyStrip l := by
  have hps : pyStrip l = ((l.dropWhile isPySpace).reverse.dropWhile isPySpace).reverse := rfl
  by_cases hn : (l.dropWhile isPySpace).reverse.dropWhile isPySpace = []
  · rw [hps, hn]
    rfl
  · have hhead : ((l.dropWhile isPySpace).reverse.dropWhile isPySpace).getLast?
        = (l.dropWhile isPySpace).head? := by
      have hsuf : (l.dropWhile isPySpace).reverse.dropWhile isPySpace
          <:+ (l.dropWhile isPySpace).reverse := List.dropWhile_suffix isPySpace
      obtain ⟨u, hu⟩ := hsuf
      calc ((l.dropWhile isPySpace).reverse.dropWhile isPySpace).getLast?
          = (u ++ (l.dropWhile isPySpace).reverse.dropWhile isPySpace).getLast? :=
            (List.getLast?_append_of_ne_nil u hn).symm
        _ = (l.dropWhile isPySpace).reverse.getLast? := by rw [hu]
        _ = (l.dropWhile isPySpace).head? := List.getLast?_reverse _
    rcases dropWhile_head_not isPySpace l with hm | ⟨a, t, hm, ha⟩
    · exact absurd (by rw [hm]; rfl :
        (l.dropWhile isPySpace).reverse.dropWhile isPySpace = []) hn
    · have hween : (pyStrip l).head? = some a := by
        rw [hps, List.head?_reverse, hhead, hm]
        rfl
      have h1 : (pyStrip l).dropWhile isPySpace = pyStrip l := by
        apply dropWhile_eq_self_of_head
        intro b t' hbt
        rw [hbt] at hween
        simp only [List.head?_cons, Option.some.injEq] at hween
        rw [hween]
        exact ha
      have h2 : pyStrip (pyStrip l)
          = (((pyStrip l).dropWhile isPySpace).reverse.dropWhile isPySpace).reverse := rfl
      rw [h2, h1, hps, List.reverse_reverse, dropWhile_idem]

theorem count_replaceAllF_le (p : Char) (ps repl : List Char) (c : Char)
    (hr : repl.count c = 0) :
    ∀ (n : Nat) (s : List Char), (replaceAllF p ps repl n s).count c ≤ s.count c := by
  intro n
  induction n with
  | zero => intro s; simp [replaceAllF]
  | succ n ih =>
    intro s
    by_cases h : (p :: ps).isPrefixOf s
    · simp only [replaceAllF, h, if_pos, List.count_append, hr]
      calc 0 + (replaceAllF p ps repl n (s.drop (ps.length + 1))).count c
          = (replaceAllF p ps repl n (s.drop (ps.length + 1))).count c := by omega
        _ ≤ (s.drop (ps.length + 1)).count c := ih _
        _ ≤ s.count c := (List.drop_sublist _ _).count_le c
    · cases s with
      | nil => simp [replaceAllF, h]
      | cons a t =>
        have e : replaceAllF p ps repl (n + 1) (a :: t) = a :: replaceAllF p ps repl n t := by
          simp [replaceAllF, h]
        rw [e]
        have := ih t
        simp only [List.count_cons]
        omega

theorem count_replaceAll_lt (p : Char) (ps repl : List Char) (c : Char) (s : List Char)
    (hr : repl.count c = 0) (hp : 0 < (p :: ps).count c)
    (hpre : (p :: ps).isPrefixOf s = true) :
    (replaceAll p ps repl s).count c < s.count c := by
  obtain ⟨t, ht⟩ := List.isPrefixOf_iff_prefix.mp hpre
  have hs : s = (p :: ps) ++ t := ht.symm
  have hdrop : s.drop (ps.length + 1) = t := by
    rw [hs]
    exact List.drop_left _ _
  have hlen : s.length = ps.length + 1 + t.length := by
    rw [hs]
    simp
    omega
  have hcount : s.count c = (p :: ps).count c + t.count c := by
    rw [hs, List.count_append]
  unfold replaceAll
  rw [hlen]
  show (replaceAllF p ps repl (ps.length + 1 + t.length) s).count c < s.count c
  have : ps.length + 1 + t.length = (ps.length + t.length) + 1 := by omega
  rw [this]
  simp only [replaceAllF, hpre, if_pos, List.count_append, hr, hdrop]
  have := count_replaceAllF_le p ps repl c hr (ps.length + t.length) t
  omega

theorem scanValue_facts (closing : List Char) (c : Char) :
    ∀ (rest acc : List Char),
      ((scanValue closing acc rest).2 <:+ rest) ∧
      ((scanValue closing acc rest).1.count c ≤ acc.count c + rest.count c) ∧
      ((scanValue closing acc rest).1.length ≤ acc.length + rest.length)
  | [], acc => by
    refine ⟨List.suffix_refl _, ?_, ?_⟩
    · have := (List.take_sublist (acc.length - 1) acc).count_le c
      simpa [scanValue, pyDropEnd] using this
    · simp [scanValue, pyDropEnd]
  | b :: rs, acc => by
    by_cases h : b = '>' ∧ closing.isSuffixOf (acc ++ [b]) = true
    · have e : scanValue closing acc (b :: rs)
          = (pyDropEnd 1 (pyDropEnd (closing.length - 1) (acc ++ [b])), rs) := by
        simp only [scanValue]
        rw [if_pos h]
      rw [e]
      dsimp only
      refine ⟨List.suffix_cons b rs, ?_, ?_⟩
      · have h1 : (pyDropEnd 1 (pyDropEnd (closing.length - 1) (acc ++ [b]))).count c
            ≤ (acc ++ [b]).count c :=
          le_trans ((List.take_sublist _ _).count_le c) ((List.take_sublist _ _).count_le c)
        have h2 : (acc ++ [b]).count c = acc.count c + [b].count c := List.count_append ..
        have h3 : (b :: rs).count c = rs.count c + [b].count c := by simp [List.count_cons]
        omega
      · have h1 : (pyDropEnd 1 (pyDropEnd (closing.length - 1) (acc ++ [b]))).length
            ≤ (acc ++ [b]).length :=
          le_trans (List.take_sublist _ _).length_le (List.take_sublist _ _).length_le
        have h2 : (acc ++ [b]).length = acc.length + 1 := by simp
        have h3 : (b :: rs).length = rs.length + 1 := by simp
        omega
    · have e : scanValue closing acc (b :: rs) = scanValue closing (acc ++ [b]) rs := by
        simp only [scanValue]
        rw [if_neg h]
      rw [e]
      obtain ⟨ih1, ih2, ih3⟩ := scanValue_facts closing c rs (acc ++ [b])
      refine ⟨ih1.trans (List.suffix_cons b rs), ?_, ?_⟩
      · have h2 : (acc ++ [b]).count c = acc.count c + [b].count c := List.count_append ..
        have h3 : (b :: rs).count c = rs.count c + [b].count c := by simp [List.count_cons]
        omega
      · have h2 : (acc ++ [b]).length = acc.length + 1 := by simp
        have h3 : (b :: rs).length = rs.length + 1 := by simp
        omega

theorem count_space_tag (t0 : List Char) :
    (t0.takeWhile (fun c => c ≠ ' ')).count ' ' = 0 := by
  rw [List.count_eq_zero]
  intro hmem
  have := List.mem_takeWhile_imp hmem
  simp at this

theorem count_space_closed (tg : List Char) (h : tg.count ' ' = 0) :
    ((('<' :: (tg ++ ['>'])) ++ ['N', 'o', 'n', 'e'] ++ ('<' :: '/' :: (tg ++ ['>'])))).count ' '
      = 0 := by
  simp [List.count_append, List.count_cons, h]

theorem count_space_pat (tg : List Char) :
    0 < ('<' :: (tg ++ [' ', '/', '>'])).count ' ' := by
  simp [List.count_append, List.count_cons]

theorem drop_length_takeWhile (p : Char → Bool) :
    ∀ l : List Char, l.drop (l.takeWhile p).length = l.dropWhile p
  | [] => rfl
  | a :: t => by
    by_cases h : p a
    · simp [List.takeWhile_cons, List.dropWhile_cons, h, drop_length_takeWhile p t]
    · simp [List.takeWhile_cons, List.dropWhile_cons, h]

theorem piSkip_drop_pi (x : List Char) (h : ['<', '?'].isPrefixOf x = true) :
    x.drop (piSkip x) = (x.drop 2).dropWhile (fun c => c ≠ '<') := by
  unfold piSkip
  rw [if_pos h, ← drop_length_takeWhile (fun c => c ≠ '<') (x.drop 2), List.drop_drop]

theorem piSkip_no_pi (x : List Char) (h : ¬ (['<', '?'].isPrefixOf x = true)) :
    piSkip x = 0 := by
  unfold piSkip
  rw [if_neg h]

theorem isPrefixOf_two_one (a b : Char) (s : List Char)
    (h : [a, b].isPrefixOf s = true) : [a].isPrefixOf s = true := by
  cases s with
  | nil => simp [List.isPrefixOf] at h
  | cons c cs =>
    simp [List.isPrefixOf] at h ⊢
    exact h.1

/-- The remainder returned by `_get_tag_value` keeps at most as many
spaces as the input; and it either has strictly fewer spaces (the
self-closing rewrite fired) or is strictly shorter. -/
theorem gtvCore_rest (x' : List Char) (i1 : Nat) (hne : x' ≠ []) :
    ((gtvCore x' i1).2.2).count ' ' ≤ x'.count ' ' ∧
    (((gtvCore x' i1).2.2).count ' ' < x'.count ' ' ∨
      ((gtvCore x' i1).2.2).length < x'.length) := by
  have hxlen : 0 < x'.length := List.length_pos.mpr hne
  by_cases h1 : ['<', '/'].isPrefixOf (x'.drop i1) = true
  · -- closing tag: the remainder is a strict-length drop
    have e : (gtvCore x' i1).2.2
        = x'.drop (i1 + 2 + ((x'.drop (i1 + 2)).takeWhile (fun c => c ≠ '>')).length + 1) := by
      simp only [gtvCore]
      rw [if_pos h1]
    rw [e]
    refine ⟨le_trans ((List.drop_sublist _ _).count_le ' ') le_rfl, Or.inr ?_⟩
    rw [List.length_drop]
    omega
  · by_cases h2 : ['<'].isPrefixOf (x'.drop i1) = true
    · -- open tag
      have hx1 : 1 ≤ (x'.drop i1).length := by
        have := (List.isPrefixOf_iff_prefix.mp h2).length_le
        simpa using this
      rw [List.length_drop] at hx1
      have e0 : gtvCore x' i1
          = (let t0 := (x'.drop (i1 + 1)).takeWhile (fun c => c ≠ '>')
             let tag := t0.takeWhile (fun c => c ≠ ' ')
             let i2 := i1 + 1 + t0.length + 1
             let closed := ('<' :: (tag ++ ['>'])) ++ ['N', 'o', 'n', 'e']
               ++ ('<' :: '/' :: (tag ++ ['>']))
             let x2 := if ('<' :: (tag ++ [' ', '/', '>'])).isPrefixOf x' then
                 replaceAll '<' (tag ++ [' ', '/', '>']) closed x'
               else x'
             let closing := '<' :: '/' :: (tag ++ ['>'])
             let vr := scanValue closing [] (x2.drop i2)
             (pyStrip tag, vr.1, vr.2)) := by
        simp only [gtvCore]
        rw [if_neg h1, if_neg (not_not_intro h2)]
      rw [e0]
      dsimp only
      set t0 := (x'.drop (i1 + 1)).takeWhile (fun c => c ≠ '>') with ht0
      set tg := t0.takeWhile (fun c => c ≠ ' ') with htg
      set i2 := i1 + 1 + t0.length + 1 with hi2
      set x2 := if ('<' :: (tg ++ [' ', '/', '>'])).isPrefixOf x' = true then
          replaceAll '<' (tg ++ [' ', '/', '>'])
            (('<' :: (tg ++ ['>'])) ++ ['N', 'o', 'n', 'e'] ++ ('<' :: '/' :: (tg ++ ['>']))) x'
        else x' with hx2
      obtain ⟨s1, s2, s3⟩ := scanValue_facts ('<' :: '/' :: (tg ++ ['>'])) ' ' (x2.drop i2) []
      have hsubc : ((scanValue ('<' :: '/' :: (tg ++ ['>'])) [] (x2.drop i2)).2).count ' '
          ≤ (x2.drop i2).count ' ' := s1.sublist.count_le ' '
      have hdropc : (x2.drop i2).count ' ' ≤ x2.count ' ' := (List.drop_sublist i2 x2).count_le ' '
      have hsubl : ((scanValue ('<' :: '/' :: (tg ++ ['>'])) [] (x2.drop i2)).2).length
          ≤ (x2.drop i2).length := s1.length_le
      have hdropl : (x2.drop i2).length = x2.length - i2 := List.length_drop i2 x2
      by_cases h3 : ('<' :: (tg ++ [' ', '/', '>'])).isPrefixOf x' = true
      · have hx2lt : x2.count ' ' < x'.count ' ' := by
          rw [hx2, if_pos h3]
          exact count_replaceAll_lt _ _ _ _ _
            (count_space_closed _ (count_space_tag _)) (count_space_pat _) h3
        exact ⟨by omega, Or.inl (by omega)⟩
      · have hx2eq : x2 = x' := by rw [hx2, if_neg h3]
        rw [hx2eq] at hsubc hdropc hsubl hdropl ⊢
        exact ⟨by omega, Or.inr (by omega)⟩
    · -- leaf: remainder is empty
      have e : (gtvCore x' i1).2.2 = [] := by
        simp only [gtvCore]
        rw [if_neg h1, if_pos h2]
      rw [e]
      exact ⟨Nat.zero_le _, Or.inr (by simpa using hxlen)⟩

/-- Measure decrease for the remainder of a `_get_tag_value` step. -/
theorem rest_dec (x : List Char) (hx : x ≠ []) :
    ((getTagValue x).2.2).count ' ' ≤ x.count ' ' ∧
    (((getTagValue x).2.2).count ' ' < x.count ' ' ∨ ((getTagValue x).2.2).length < x.length) := by
  have hgtv : getTagValue x = gtvCore (pyStrip x) (piSkip (pyStrip x)) := rfl
  have hspc := spc_pyStrip_le x ' '
  have hlen := len_pyStrip_le x
  have hxlen : 0 < x.length := List.length_pos.mpr hx
  rw [hgtv]
  by_cases hx' : pyStrip x = []
  · rw [hx']
    have hnil : (gtvCore ([] : List Char) (piSkip ([] : List Char))).2.2 = [] := rfl
    rw [hnil]
    exact ⟨by simp, Or.inr (by simpa using hxlen)⟩
  · obtain ⟨g1, g2⟩ := gtvCore_rest (pyStrip x) (piSkip (pyStrip x)) hx'
    refine ⟨le_trans g1 hspc, ?_⟩
    rcases g2 with h | h
    · exact Or.inl (lt_of_lt_of_le h hspc)
    · exact Or.inr (lt_of_lt_of_le h hlen)

/-- The value returned by a `_get_tag_value` step: empty (closing tag),
the raw tail (non-xml leaf), or measure-decreasing (open tag). -/
theorem gtvCore_value (x' : List Char) (i1 : Nat) :
    (gtvCore x' i1).2.1 = [] ∨
    ((gtvCore x' i1).2.1 = x'.drop i1 ∧ ¬ (['<'].isPrefixOf (x'.drop i1) = true)) ∨
    ((gtvCore x' i1).2.1.count ' ' ≤ x'.count ' ' ∧
      ((gtvCore x' i1).2.1.count ' ' < x'.count ' ' ∨
        (gtvCore x' i1).2.1.length < x'.length)) := by
  by_cases h1 : ['<', '/'].isPrefixOf (x'.drop i1) = true
  · left
    simp only [gtvCore]
    rw [if_pos h1]
  · by_cases h2 : ['<'].isPrefixOf (x'.drop i1) = true
    · right; right
      have hx1 : 1 ≤ (x'.drop i1).length := by
        have := (List.isPrefixOf_iff_prefix.mp h2).length_le
        simpa using this
      rw [List.length_drop] at hx1
      have e0 : gtvCore x' i1
          = (let t0 := (x'.drop (i1 + 1)).takeWhile (fun c => c ≠ '>')
             let tag := t0.takeWhile (fun c => c ≠ ' ')
             let i2 := i1 + 1 + t0.length + 1
             let closed := ('<' :: (tag ++ ['>'])) ++ ['N', 'o', 'n', 'e']
               ++ ('<' :: '/' :: (tag ++ ['>']))
             let x2 := if ('<' :: (tag ++ [' ', '/', '>'])).isPrefixOf x' then
                 replaceAll '<' (tag ++ [' ', '/', '>']) closed x'
               else x'
             let closing := '<' :: '/' :: (tag ++ ['>'])
             let vr := scanValue closing [] (x2.drop i2)
             (pyStrip tag, vr.1, vr.2)) := by
        simp only [gtvCore]
        rw [if_neg h1, if_neg (not_not_intro h2)]
      rw [e0]
      dsimp only
      set t0 := (x'.drop (i1 + 1)).takeWhile (fun c => c ≠ '>') with ht0
      set tg := t0.takeWhile (fun c => c ≠ ' ') with htg
      set i2 := i1 + 1 + t0.length + 1 with hi2
      set x2 := if ('<' :: (tg ++ [' ', '/', '>'])).isPrefixOf x' = true then
          replaceAll '<' (tg ++ [' ', '/', '>'])
            (('<' :: (tg ++ ['>'])) ++ ['N', 'o', 'n', 'e'] ++ ('<' :: '/' :: (tg ++ ['>']))) x'
        else x' with hx2
      obtain ⟨s1, s2, s3⟩ := scanValue_facts ('<' :: '/' :: (tg ++ ['>'])) ' ' (x2.drop i2) []
      simp only [List.count_nil, List.length_nil, Nat.zero_add] at s2 s3
      have hdropc : (x2.drop i2).count ' ' ≤ x2.count ' ' := (List.drop_sublist i2 x2).count_le ' '
      have hdropl : (x2.drop i2).length = x2.length - i2 := List.length_drop i2 x2
      by_cases h3 : ('<' :: (tg ++ [' ', '/', '>'])).isPrefixOf x' = true
      · have hx2lt : x2.count ' ' < x'.count ' ' := by
          rw [hx2, if_pos h3]
          exact count_replaceAll_lt _ _ _ _ _
            (count_space_closed _ (count_space_tag _)) (count_space_pat _) h3
        exact ⟨by omega, Or.inl (by omega)⟩
      · have hx2eq : x2 = x' := by rw [hx2, if_neg h3]
        rw [hx2eq] at s2 s3 hdropc hdropl ⊢
        exact ⟨by omega, Or.inr (by omega)⟩
    · right; left
      refine ⟨?_, h2⟩
      simp only [gtvCore]
      rw [if_neg h1, if_pos h2]

/-- Measure decrease for the recursive call of `_xml2dict` on the value,
under the branch condition that the value parses as xml. -/
theorem value_dec (x : List Char) (hx : x ≠ [])
    (hxml : (getTagValue (pyStrip (getTagValue x).2.1)).1 ≠ []) :
    (pyStrip (getTagValue x).2.1).count ' ' ≤ x.count ' ' ∧
    ((pyStrip (getTagValue x).2.1).count ' ' < x.count ' ' ∨
      (pyStrip (getTagValue x).2.1).length < x.length) := by
  have hgtv : getTagValue x = gtvCore (pyStrip x) (piSkip (pyStrip x)) := rfl
  have hspc := spc_pyStrip_le x ' '
  have hlen := len_pyStrip_le x
  have hxlen : 0 < x.length := List.length_pos.mpr hx
  rcases gtvCore_value (pyStrip x) (piSkip (pyStrip x)) with h | ⟨hv, hnl⟩ | ⟨hb1, hb2⟩
  · exfalso
    apply hxml
    rw [hgtv, h]
    rfl
  · exfalso
    by_cases hPI : ['<', '?'].isPrefixOf (pyStrip x) = true
    · have hd := piSkip_drop_pi (pyStrip x) hPI
      rw [hd] at hv hnl
      rcases dropWhile_head_not (fun c => c ≠ '<') ((pyStrip x).drop 2) with hemp | ⟨a, t, heq, hpa⟩
      · rw [hemp] at hv
        apply hxml
        rw [hgtv, hv]
        rfl
      · rw [heq] at hnl
        have ha : a = '<' := by simpa using hpa
        apply hnl
        rw [ha]
        simp [List.isPrefixOf]
    · have h0 : piSkip (pyStrip x) = 0 := piSkip_no_pi _ hPI
      rw [h0, List.drop_zero] at hv hnl
      apply hxml
      rw [hgtv, h0, hv, pyStrip_idem]
      have hg2 : getTagValue (pyStrip x) = gtvCore (pyStrip x) (piSkip (pyStrip x)) := by
        show gtvCore (pyStrip (pyStrip x)) (piSkip (pyStrip (pyStrip x))) = _
        rw [pyStrip_idem]
      rw [hg2, h0]
      have hncl : ¬ (['<', '/'].isPrefixOf ((pyStrip x).drop 0) = true) := by
        rw [List.drop_zero]
        intro hc
        exact hnl (isPrefixOf_two_one '<' '/' _ hc)
      have hn2 : ¬ (['<'].isPrefixOf ((pyStrip x).drop 0) = true) := by
        rw [List.drop_zero]
        exact hnl
      simp only [gtvCore]
      rw [if_neg hncl, if_pos hn2]
  · rw [hgtv]
    refine ⟨le_trans (spc_pyStrip_le _ ' ') (le_trans hb1 hspc), ?_⟩
    rcases hb2 with h | h
    · exact Or.inl (lt_of_le_of_lt (spc_pyStrip_le _ ' ') (lt_of_lt_of_le h hspc))
    · exact Or.inr (lt_of_le_of_lt (len_pyStrip_le _) (lt_of_lt_of_le h hlen))

/-- More fuel never changes a successful parse. -/
theorem xml2dictF_mono : ∀ (n : Nat) {m : Nat} {d : XDict} {x : List Char} {r : XDict},
    n ≤ m → xml2dictF n d x = some r → xml2dictF m d x = some r := by
  intro n
  induction n with
  | zero =>
    intro m d x r _ h
    simp [xml2dictF] at h
  | succ n ih =>
    intro m d x r hnm h
    cases m with
    | zero => omega
    | succ m' =>
      have hnm' : n ≤ m' := by omega
      by_cases hx : x = []
      · simp only [xml2dictF, if_pos hx] at h ⊢
        exact h
      · simp only [xml2dictF, if_neg hx] at h ⊢
        by_cases hXml : (getTagValue (pyStrip (getTagValue x).2.1)).1 = []
        · rw [if_pos hXml] at h ⊢
          by_cases hval : pyStrip (getTagValue x).2.1 = []
          · rw [if_pos hval] at h ⊢
            exact ih hnm' h
          · rw [if_neg hval] at h ⊢
            exact ih hnm' h
        · rw [if_neg hXml] at h ⊢
          cases hsub : xml2dictF n [] (pyStrip (getTagValue x).2.1) with
          | none =>
            rw [hsub] at h
            simp at h
          | some sub =>
            rw [hsub] at h
            rw [ih hnm' hsub]
            exact ih hnm' h

/-- Totality of `_xml2dict`: for every input there is enough fuel, by
well-founded descent on (space count, length). -/
theorem xml2dictF_total_aux : ∀ (C L : Nat) (x : List Char), x.count ' ' ≤ C →
    x.length ≤ L → ∀ d : XDict, ∃ n, (xml2dictF n d x).isSome = true := by
  intro C
  induction C using Nat.strong_induction_on with
  | _ C IHC =>
    intro L
    induction L using Nat.strong_induction_on with
    | _ L IHL =>
      intro x hC hL d
      by_cases hx : x = []
      · exact ⟨1, by simp [xml2dictF, hx]⟩
      · obtain ⟨hr1, hr2⟩ := rest_dec x hx
        have hrest : ∀ d' : XDict, ∃ n, (xml2dictF n d' ((getTagValue x).2.2)).isSome = true := by
          intro d'
          rcases hr2 with h | h
          · exact IHC _ (lt_of_lt_of_le h hC) ((getTagValue x).2.2).length _ le_rfl le_rfl d'
          · exact IHL _ (lt_of_lt_of_le h hL) _ (le_trans hr1 hC) le_rfl d'
        by_cases hXml : (getTagValue (pyStrip (getTagValue x).2.1)).1 = []
        · by_cases hval : pyStrip (getTagValue x).2.1 = []
          · obtain ⟨n, hn⟩ := hrest (addKey (getTagValue x).1 d)
            refine ⟨n + 1, ?_⟩
            simp only [xml2dictF, if_neg hx, if_pos hXml, if_pos hval]
            exact hn
          · obtain ⟨n, hn⟩ := hrest (appendAt (getTagValue x).1
              (Child.leaf (pyStrip (getTagValue x).2.1)) (addKey (getTagValue x).1 d))
            refine ⟨n + 1, ?_⟩
            simp only [xml2dictF, if_neg hx, if_pos hXml, if_neg hval]
            exact hn
        · obtain ⟨hv1, hv2⟩ := value_dec x hx hXml
          have hval' : ∃ m, (xml2dictF m [] (pyStrip (getTagValue x).2.1)).isSome = true := by
            rcases hv2 with h | h
            · exact IHC _ (lt_of_lt_of_le h hC)
                (pyStrip (getTagValue x).2.1).length _ le_rfl le_rfl []
            · exact IHL _ (lt_of_lt_of_le h hL) _ (le_trans hv1 hC) le_rfl []
          obtain ⟨m, hm⟩ := hval'
          obtain ⟨sub, hsub⟩ : ∃ sub, xml2dictF m [] (pyStrip (getTagValue x).2.1) = some sub := by
            cases hcase : xml2dictF m [] (pyStrip (getTagValue x).2.1) with
            | none => rw [hcase] at hm; simp at hm
            | some sub => exact ⟨sub, rfl⟩
          obtain ⟨k, hk⟩ := hrest (appendAt (getTagValue x).1 (Child.node sub)
            (addKey (getTagValue x).1 d))
          obtain ⟨r, hr⟩ : ∃ r, xml2dictF k (appendAt (getTagValue x).1 (Child.node sub)
              (addKey (getTagValue x).1 d)) ((getTagValue x).2.2) = some r := by
            cases hcase : xml2dictF k (appendAt (getTagValue x).1 (Child.node sub)
                (addKey (getTagValue x).1 d)) ((getTagValue x).2.2) with
            | none => rw [hcase] at hk; simp at hk
            | some r => exact ⟨r, rfl⟩
          refine ⟨max m k + 1, ?_⟩
          simp only [xml2dictF, if_neg hx, if_neg hXml]
          rw [xml2dictF_mono m (le_max_left m k) hsub]
          dsimp only
          rw [xml2dictF_mono k (le_max_right m k) hr]
          simp

/-! ## Symbolic parse of a plain empty element -/

theorem dropWhile_eq_self_of_all {p : Char → Bool} :
    ∀ {l : List Char}, (∀ a ∈ l, p a = false) → l.dropWhile p = l
  | [], _ => rfl
  | a :: t, h => by simp [List.dropWhile, h a (List.mem_cons_self a t)]

theorem pyStrip_eq_self_of_no_ws {l : List Char} (h : ∀ c ∈ l, isPySpace c = false) :
    pyStrip l = l := by
  unfold pyStrip
  rw [dropWhile_eq_self_of_all h,
      dropWhile_eq_self_of_all (fun c hc => h c (List.mem_reverse.mp hc)),
      List.reverse_reverse]

theorem takeWhile_all {p : Char → Bool} :
    ∀ {l : List Char}, (∀ a ∈ l, p a = true) → l.takeWhile p = l
  | [], _ => rfl
  | a :: t, h => by
    simp [List.takeWhile_cons, h a (List.mem_cons_self a t),
      takeWhile_all (fun b hb => h b (List.mem_cons_of_mem a hb))]

theorem takeWhile_append_stop {p : Char → Bool} {b : Char} (hb : p b = false) :
    ∀ (l₁ l₂ : List Char), (∀ a ∈ l₁, p a = true) → (l₁ ++ b :: l₂).takeWhile p = l₁
  | [], l₂, _ => by simp [List.takeWhile_cons, hb]
  | a :: t, l₂, h => by
    simp [List.takeWhile_cons, h a (List.mem_cons_self a t),
      takeWhile_append_stop hb t l₂ (fun c hc => h c (List.mem_cons_of_mem a hc))]

theorem isPrefixOf_append_cancel :
    ∀ (l a b : List Char), ((l ++ a).isPrefixOf (l ++ b)) = a.isPrefixOf b
  | [], _, _ => rfl
  | c :: t, a, b => by simp [List.isPrefixOf, isPrefixOf_append_cancel t a b]

theorem scan_no_gt (cl : List Char) :
    ∀ (m : List Char), (∀ a ∈ m, a ≠ '>') →
      ∀ (acc r : List Char), scanValue cl acc (m ++ r) = scanValue cl (acc ++ m) r
  | [], _, acc, r => by simp
  | a :: t, h, acc, r => by
    have ha : a ≠ '>' := h a (List.mem_cons_self a t)
    have e : scanValue cl acc ((a :: t) ++ r) = scanValue cl (acc ++ [a]) (t ++ r) := by
      simp only [List.cons_append, scanValue]
      rw [if_neg (fun hcon => ha hcon.1)]
      rfl
    rw [e, scan_no_gt cl t (fun b hb => h b (List.mem_cons_of_mem a hb)) (acc ++ [a]) r,
        List.append_assoc]
    rfl

/-- `_get_tag_value` on a plain empty element `<t></t>`. -/
theorem getTagValue_elem (t : List Char) (h : validTag t) :
    getTagValue (elemOf t) = (t, [], []) := by
  obtain ⟨hne, hall⟩ := h
  obtain ⟨c0, t', rfl⟩ : ∃ c0 t', t = c0 :: t' := by
    cases t with
    | nil => exact absurd rfl hne
    | cons c0 t' => exact ⟨c0, t', rfl⟩
  have hc0 := hall c0 (List.mem_cons_self c0 t')
  have hx0ws : ∀ c ∈ elemOf (c0 :: t'), isPySpace c = false := by
    have hmem : ∀ c ∈ elemOf (c0 :: t'),
        c ∈ c0 :: t' ∨ c = '<' ∨ c = '>' ∨ c = '/' := by
      intro c hc
      simp only [elemOf, List.mem_cons, List.mem_append, List.mem_singleton] at hc
      simp only [List.mem_cons]
      tauto
    intro c hc
    rcases hmem c hc with hm | rfl | rfl | rfl
    · exact (hall c hm).2.2.2.2.2
    · rfl
    · rfl
    · rfl
  have hstrip := pyStrip_eq_self_of_no_ws hx0ws
  have hpi : piSkip (elemOf (c0 :: t')) = 0 := by
    apply piSkip_no_pi
    intro hcon
    simp [elemOf, List.isPrefixOf] at hcon
    exact hc0.2.2.2.1 hcon.symm
  have hg : getTagValue (elemOf (c0 :: t')) = gtvCore (elemOf (c0 :: t')) 0 := by
    unfold getTagValue
    rw [hstrip, hpi]
  rw [hg]
  have h1 : ¬ (['<', '/'].isPrefixOf ((elemOf (c0 :: t')).drop 0) = true) := by
    rw [List.drop_zero]
    intro hcon
    simp [elemOf, List.isPrefixOf] at hcon
    exact hc0.2.2.1 hcon.symm
  have h2 : ['<'].isPrefixOf ((elemOf (c0 :: t')).drop 0) = true := by
    rw [List.drop_zero]
    simp [elemOf, List.isPrefixOf]
  have e0 : gtvCore (elemOf (c0 :: t')) 0
      = (let t0 := ((elemOf (c0 :: t')).drop (0 + 1)).takeWhile (fun c => c ≠ '>')
         let tag := t0.takeWhile (fun c => c ≠ ' ')
         let i2 := 0 + 1 + t0.length + 1
         let closed := ('<' :: (tag ++ ['>'])) ++ ['N', 'o', 'n', 'e']
           ++ ('<' :: '/' :: (tag ++ ['>']))
         let x2 := if ('<' :: (tag ++ [' ', '/', '>'])).isPrefixOf (elemOf (c0 :: t')) then
             replaceAll '<' (tag ++ [' ', '/', '>']) closed (elemOf (c0 :: t'))
           else elemOf (c0 :: t')
         let closing := '<' :: '/' :: (tag ++ ['>'])
         let vr := scanValue closing [] (x2.drop i2)
         (pyStrip tag, vr.1, vr.2)) := by
    simp only [gtvCore]
    rw [if_neg h1, if_neg (not_not_intro h2)]
  rw [e0]
  dsimp only
  have hd1 : (elemOf (c0 :: t')).drop (0 + 1)
      = (c0 :: t') ++ ('>' :: ('<' :: ('/' :: ((c0 :: t') ++ ['>'])))) := rfl
  rw [hd1]
  have ht0 : ((c0 :: t') ++ ('>' :: ('<' :: ('/' :: ((c0 :: t') ++ ['>']))))).takeWhile
      (fun c => c ≠ '>') = c0 :: t' := by
    apply takeWhile_append_stop (by simp)
    intro a ha
    simp [(hall a ha).1]
  rw [ht0]
  have htag : (c0 :: t').takeWhile (fun c => c ≠ ' ') = c0 :: t' := by
    apply takeWhile_all
    intro a ha
    simp [(hall a ha).2.1]
  rw [htag]
  have h3 : ¬ (('<' :: ((c0 :: t') ++ [' ', '/', '>'])).isPrefixOf (elemOf (c0 :: t')) = true) := by
    intro hcon
    have h4 : ((c0 :: t') ++ [' ', '/', '>']).isPrefixOf
        ((c0 :: t') ++ ('>' :: ('<' :: ('/' :: ((c0 :: t') ++ ['>']))))) = true := by
      have : (('<' :: ((c0 :: t') ++ [' ', '/', '>'])).isPrefixOf (elemOf (c0 :: t')))
          = (((c0 :: t') ++ [' ', '/', '>']).isPrefixOf
            ((c0 :: t') ++ ('>' :: ('<' :: ('/' :: ((c0 :: t') ++ ['>'])))))) := by
        simp [elemOf, List.isPrefixOf]
      rw [← this]
      exact hcon
    rw [isPrefixOf_append_cancel] at h4
    simp [List.isPrefixOf] at h4
  rw [if_neg h3]
  have hdrop : (elemOf (c0 :: t')).drop (0 + 1 + (c0 :: t').length + 1)
      = '<' :: ('/' :: ((c0 :: t') ++ ['>'])) := by
    have harr : 0 + 1 + (c0 :: t').length + 1 = (c0 :: t').length + 1 + 1 := by omega
    rw [harr]
    show (('<' :: ((c0 :: t') ++ ('>' :: ('<' :: ('/' :: ((c0 :: t') ++ ['>'])))))).drop
      ((c0 :: t').length + 1 + 1)) = '<' :: ('/' :: ((c0 :: t') ++ ['>']))
    rw [show (c0 :: t').length + 1 + 1 = ((c0 :: t').length + 1) + 1 from rfl,
        List.drop_succ_cons, List.drop_append 1]
    rfl
  rw [hdrop]
  have hscan : scanValue ('<' :: '/' :: ((c0 :: t') ++ ['>'])) []
      ('<' :: ('/' :: ((c0 :: t') ++ ['>']))) = ([], []) := by
    have s1 : scanValue ('<' :: '/' :: ((c0 :: t') ++ ['>'])) []
        ('<' :: ('/' :: ((c0 :: t') ++ ['>'])))
        = scanValue ('<' :: '/' :: ((c0 :: t') ++ ['>'])) ['<']
          ('/' :: ((c0 :: t') ++ ['>'])) := by
      simp only [scanValue]
      rw [if_neg (fun hcon => absurd hcon.1 (by decide))]
      rfl
    have s2 : scanValue ('<' :: '/' :: ((c0 :: t') ++ ['>'])) ['<']
        ('/' :: ((c0 :: t') ++ ['>']))
        = scanValue ('<' :: '/' :: ((c0 :: t') ++ ['>'])) ['<', '/']
          ((c0 :: t') ++ ['>']) := by
      simp only [scanValue]
      rw [if_neg (fun hcon => absurd hcon.1 (by decide))]
      rfl
    have s3 := scan_no_gt ('<' :: '/' :: ((c0 :: t') ++ ['>'])) (c0 :: t')
      (fun a ha => (hall a ha).1) ['<', '/'] ['>']
    have hacc : (['<', '/'] ++ (c0 :: t')) ++ ['>'] = '<' :: '/' :: ((c0 :: t') ++ ['>']) := by
      simp
    have hcond : ('>' : Char) = '>' ∧
        (('<' :: '/' :: ((c0 :: t') ++ ['>'])).isSuffixOf
          ((['<', '/'] ++ (c0 :: t')) ++ ['>']) = true) :=
      ⟨rfl, by rw [hacc]; exact List.isSuffixOf_iff_suffix.mpr (List.suffix_refl _)⟩
    have s4 : scanValue ('<' :: '/' :: ((c0 :: t') ++ ['>'])) (['<', '/'] ++ (c0 :: t')) ['>']
        = (pyDropEnd 1 (pyDropEnd (('<' :: '/' :: ((c0 :: t') ++ ['>'])).length - 1)
            ((['<', '/'] ++ (c0 :: t')) ++ ['>'])), []) := by
      simp only [scanValue]
      rw [if_pos (And.intro trivial hcond.2)]
    have hCLlen : ('<' :: '/' :: ((c0 :: t') ++ ['>'])).length = t'.length + 4 := by
      simp
    have htake : pyDropEnd 1 (pyDropEnd (('<' :: '/' :: ((c0 :: t') ++ ['>'])).length - 1)
        ((['<', '/'] ++ (c0 :: t')) ++ ['>'])) = [] := by
      rw [hacc]
      unfold pyDropEnd
      rw [hCLlen]
      have e1 : t'.length + 4 - (t'.length + 4 - 1) = 1 := by omega
      rw [e1]
      rfl
    rw [s1, s2, s3, s4, htake]
  have hshape : scanValue ('<' :: '/' :: ((c0 :: t') ++ ['>'])) []
      ('<' :: ('/' :: ((c0 :: t') ++ ['>']))) = ([], []) := hscan
  rw [hshape]
  rw [pyStrip_eq_self_of_no_ws (fun c hc => (hall c hc).2.2.2.2.2)]

/-- `_xml2dict` of a plain empty element: the key is present and maps to
the empty list. -/
theorem xml2dictF_elem (t : List Char) (h : validTag t) :
    xml2dictF 2 [] (elemOf t) = some [(t, [])] := by
  have hg := getTagValue_elem t h
  have hne : elemOf t ≠ [] := List.cons_ne_nil _ _
  simp only [xml2dictF, if_neg hne, hg]
  simp [addKey, xml2dictF, pyStrip, getTagValue, gtvCore, piSkip]

/-! ## Claims -/

/-- C1.  `get_dlnas` with `blocking=True` never enters the receive loop:
`keep_scanning` is initialised `False` on line 450 and nothing sets it
`True`, so the loop guard of line 462 fails immediately and the call
returns the empty device set regardless of how much scan time remains and
which datagrams are pending.  This contradicts the claim (and the
function's own docstring) that the loop runs until the deadline or a
cancellation, so the claim is recorded as a code bug; this theorem
evaluates the modelled code on every input. -/
theorem get_dlnas_blocking_returns_empty
    (fuel : Nat) (fetch : List Char → Option (List Char)) (ssdpVer : Nat)
    (ticks : List Tick) :
    getDlnasBlocking fuel fetch ssdpVer ticks = some (Except.ok []) := by
  cases ticks <;> simp [getDlnasBlocking, discoveryLoop, keepScanningInit]

/-- C2.  The claimed silent deduplication can never happen: `DLNADevice`
overrides `__eq__` (line 277) but defines no `__hash__`, so Python 3 sets
`__hash__ = None` on the class and instances are unhashable.  `devices`
is a `set()` (line 458), and both `device not in devices` (line 468) and
`devices.add(device)` (line 470) hash the device first — even when the
set is empty — so the processing step raises `TypeError: unhashable
type` instead of silently dropping a duplicate or adding a new element.
This theorem shows the modelled step raises for every device set and
device, in particular for the claim's own scenario of two devices that
`__eq__` deems equal (`devA`/`devB`: equal name and ip, different
control URLs), so the claim is recorded as a code bug.  (The loop that
would reach this code is itself dead, see C1.) -/
theorem dedup_step_raises_typeerror :
    (∀ (devices : List DLNADevice) (dev : DLNADevice),
      dedupStep devices dev = Except.error PyErr.typeError) ∧
    eqDev devA devB = true ∧
    devA.control_url = some (Child.leaf "/ctrlA".data) ∧
    devB.control_url = some (Child.leaf "/ctrlB".data) :=
  ⟨fun _ _ => rfl, by decide, rfl, rfl⟩

/-- C3.  The self-closing rewrite is a slip: the rewrite pattern is
`'<' + tag + ' />'` (with a space, line 76) while for the input `<a/>`
the slash is folded into the tag name (the attribute scan of lines 64-71
only stops collecting at a space), so `"<a/>"` parses to the key `"a/"`
with an empty child list — not to a tag `a` with single child `"None"`.
Even the spaced form `"<a />"` yields the child `"ne"` because the scan
resumes at the pre-rewrite index inside `<a>None</a>`.  This theorem
evaluates the modelled parser at both failing inputs. -/
theorem selfclosing_parse_eval :
    xml2dictF 10 [] "<a/>".data = some [("a/".data, [])] ∧
    xml2dictF 10 [] "<a />".data = some [("a".data, [Child.leaf "ne".data])] :=
  ⟨rfl, rfl⟩

/-- C7.  `set_volume 35` builds a packet whose SOAP body contains
`<DesiredVolume>35</DesiredVolume>` and whose SOAPACTION header carries
the RenderingControl URN; in general, actions in the volume/mute list are
routed to the RenderingControl URN and every other action to the
AVTransport URN, and the two URNs are never equal. -/
theorem set_volume_packet_ok :
    (∀ dev : DLNADevice,
      "<DesiredVolume>35</DesiredVolume>".data <:+: setVolumePacket dev 35 0 ∧
      ("SOAPACTION: \"".data ++ URN_RenderingControl_Fmt dev.ssdp_version
          ++ "#SetVolume\"".data) <:+: setVolumePacket dev 35 0) ∧
    (∀ v : Nat, URN_RenderingControl_Fmt v ≠ URN_AVTransport_Fmt v) ∧
    (∀ (dev : DLNADevice) (action : List Char), action ∈ rcActions →
      urnOf dev action = URN_RenderingControl_Fmt dev.ssdp_version) ∧
    (∀ (dev : DLNADevice) (action : List Char), action ∉ rcActions →
      urnOf dev action = URN_AVTransport_Fmt dev.ssdp_version) := by
  refine ⟨?_, ?_, ?_, ?_⟩
  · intro dev
    have hurn : urnOf dev "SetVolume".data = URN_RenderingControl_Fmt dev.ssdp_version := by
      simp [urnOf, rcActions]
    constructor
    · show "<DesiredVolume>35</DesiredVolume>".data <:+: setVolumePacket dev 35 0
      simp only [setVolumePacket, createPacket, hurn]
      refine List.IsInfix.trans ?_ ((suffix_joinCRLF_last [_, _, _, _, _, _, _, _, _] _).isInfix)
      simp only [payloadFromTemplate]
      have hmid : ("<DesiredVolume>35</DesiredVolume>".data : List Char) <:+: List.foldl
          (fun acc kv => acc ++ ('<' :: kv.1 ++ ['>']) ++ kv.2 ++ ('<' :: '/' :: kv.1 ++ ['>'])) []
          [("InstanceID".data, natRepr 0), ("DesiredVolume".data, natRepr 35),
           ("Channel".data, "Master".data)] := by decide
      exact List.IsInfix.trans hmid
        (isInfix_appendL _ (isInfix_appendL _ (isInfix_appendL _ (isInfix_suffix_append _ _))))
    · show ("SOAPACTION: \"".data ++ URN_RenderingControl_Fmt dev.ssdp_version
          ++ "#SetVolume\"".data) <:+: setVolumePacket dev 35 0
      have hline : ("SOAPACTION: \"".data ++ URN_RenderingControl_Fmt dev.ssdp_version
            ++ "#SetVolume\"".data)
          = "SOAPACTION: \"".data ++ urnOf dev "SetVolume".data ++ "#".data
            ++ "SetVolume".data ++ "\"".data := by
        rw [hurn]
        rw [show ("#SetVolume\"".data : List Char) = "#".data ++ "SetVolume".data ++ "\"".data
          from by decide]
        simp [List.append_assoc]
      rw [hline]
      simp only [setVolumePacket, createPacket]
      exact mem_joinCRLF_infix _ _ (List.mem_cons_of_mem _ (List.mem_cons_of_mem _
        (List.mem_cons_of_mem _ (List.mem_cons_of_mem _ (List.mem_cons_of_mem _
          (List.mem_cons_of_mem _ (List.mem_cons_self _ _)))))))
  · intro v h
    have hlen := congrArg List.length h
    simp only [URN_RenderingControl_Fmt, URN_AVTransport_Fmt, List.length_append] at hlen
    rw [show ("urn:schemas-upnp-org:service:RenderingControl:".data).length = 46 from by decide,
        show ("urn:schemas-upnp-org:service:AVTransport:".data).length = 41 from by decide] at hlen
    omega
  · intro dev action h
    simp [urnOf, h]
  · intro dev action h
    simp [urnOf, h]

/-- Witness for C7: the endpoint rule evaluated at the concrete actions
`SetVolume` (in the volume/mute list) and `Play` (not in it). -/
theorem set_volume_packet_ok_witness :
    urnOf devA "SetVolume".data = URN_RenderingControl_Fmt devA.ssdp_version ∧
    urnOf devA "Play".data = URN_AVTransport_Fmt devA.ssdp_version ∧
    URN_RenderingControl_Fmt 1 ≠ URN_AVTransport_Fmt 1 :=
  ⟨set_volume_packet_ok.2.2.1 devA "SetVolume".data (by decide),
   set_volume_packet_ok.2.2.2 devA "Play".data (by decide),
   set_volume_packet_ok.2.1 1⟩

/-- C4, counterexample.  A predicate that matches no child does NOT make
the query return none: the `for`/`break` loop of lines 148-151 simply
leaves `xml_dict` unchanged when no child matches, so the query returns
the untouched dictionary. -/
theorem xpath_nomatch_counterexample :
    xpathRun [("t".data, [Child.node [("a".data, [Child.leaf "w".data])]])] "t@a=v".data
      = Except.ok (some (Child.node [("t".data, [Child.node [("a".data, [Child.leaf "w".data])]])])) ∧
    Except.ok (some (Child.node [("t".data, [Child.node [("a".data, [Child.leaf "w".data])]])]))
      ≠ (Except.ok none : Except PyErr (Option Child)) := by
  refine ⟨rfl, ?_⟩
  intro h
  simp at h

/-- C4, amended.  The path query returns none immediately when a
segment's tag is absent from the current node, and a predicate segment
selects the first child whose attribute key holds exactly `[value]`; but
when a predicate matches no child, the current node is left unchanged
and traversal continues from it — the result is not none. -/
theorem xpath_amended :
    (∀ (d : XDict) (seg : List Char) (rest : List (List Char)),
        keyLookup ((pySplit '@' seg).headD []) d = none →
        xpathSegs (seg :: rest) (Child.node d) = .ok none) ∧
    (∀ (a aval : List Char) (d' : XDict) (cs : List Child) (v : List Child),
        keyLookup a d' = some v → eqSingletonLeaf v aval = true →
        findMatch a aval (Child.node d' :: cs) = .ok (some (Child.node d'))) ∧
    (∀ (d : XDict) (seg tag attr a aval : List Char) (children : List Child) (c : Child)
        (rest : List (List Char)),
        pySplit '@' seg = [tag, attr] → attr ≠ [] → pySplit '=' attr = [a, aval] →
        keyLookup tag d = some children → findMatch a aval children = .ok (some c) →
        xpathSegs (seg :: rest) (Child.node d) = xpathSegs rest c) ∧
    (∀ (d : XDict) (seg tag attr a aval : List Char) (children : List Child)
        (rest : List (List Char)),
        pySplit '@' seg = [tag, attr] → attr ≠ [] → pySplit '=' attr = [a, aval] →
        keyLookup tag d = some children → findMatch a aval children = .ok none →
        xpathSegs (seg :: rest) (Child.node d) = xpathSegs rest (Child.node d)) := by
  refine ⟨?_, ?_, ?_, ?_⟩
  · intro d seg rest h
    simp only [List.headD_eq_head?] at h
    simp [xpathSegs, segApply, h]
  · intro a aval d' cs v hk he
    simp [findMatch, hk, he]
  · intro d seg tag attr a aval children c rest h1 h2 h3 h4 h5
    simp [xpathSegs, segApply, h1, h2, h3, h4, h5]
  · intro d seg tag attr a aval children rest h1 h2 h3 h4 h5
    simp [xpathSegs, segApply, h1, h2, h3, h4, h5]

/-- Witness for C4 at concrete inputs: an absent tag yields none; a
matching predicate selects the first matching child; a non-matching
predicate keeps the node and finishes with it. -/
theorem xpath_amended_witness :
    xpathSegs ["zz".data] (Child.node [("x".data, [Child.leaf "1".data])]) = .ok none ∧
    findMatch "a".data "v".data
        [Child.node [("a".data, [Child.leaf "v".data])], Child.leaf "late".data]
      = .ok (some (Child.node [("a".data, [Child.leaf "v".data])])) ∧
    xpathSegs ["t@a=v".data] (Child.node [("t".data, [Child.node [("a".data, [Child.leaf "v".data])]])])
      = xpathSegs [] (Child.node [("a".data, [Child.leaf "v".data])]) ∧
    xpathSegs ["t@a=z".data] (Child.node [("t".data, [Child.node [("a".data, [Child.leaf "v".data])]])])
      = xpathSegs [] (Child.node [("t".data, [Child.node [("a".data, [Child.leaf "v".data])]])]) := by
  refine ⟨?_, ?_, ?_, ?_⟩
  · exact xpath_amended.1 [("x".data, [Child.leaf "1".data])] "zz".data [] (by rfl)
  · exact xpath_amended.2.1 "a".data "v".data [("a".data, [Child.leaf "v".data])]
      [Child.leaf "late".data] [Child.leaf "v".data] (by rfl) (by rfl)
  · exact xpath_amended.2.2.1 [("t".data, [Child.node [("a".data, [Child.leaf "v".data])]])]
      "t@a=v".data "t".data "a=v".data "a".data "v".data
      [Child.node [("a".data, [Child.leaf "v".data])]]
      (Child.node [("a".data, [Child.leaf "v".data])]) [] (by rfl) (by decide) (by rfl)
      (by rfl) (by rfl)
  · exact xpath_amended.2.2.2 [("t".data, [Child.node [("a".data, [Child.leaf "v".data])]])]
      "t@a=z".data "t".data "a=z".data "a".data "z".data
      [Child.node [("a".data, [Child.leaf "v".data])]] [] (by rfl) (by decide) (by rfl)
      (by rfl) (by rfl)

/-- C5, counterexample.  The SOAP fault description is logged at ERROR
level (`logging.error`, line 200), not as a warning, while the parsed
response is still returned. -/
theorem send_tcp_fault_log_counterexample :
    sendTcp 20 (some faultResponse)
      = some (.dict faultDict, [(LogLevel.error, Child.leaf "err".data)]) ∧
    LogLevel.error ≠ LogLevel.warning :=
  ⟨rfl, by decide⟩

/-- C5, amended.  Every transport-level failure makes `_send_tcp` return
the empty string instead of raising; when the response parses and
resolves the SOAP fault path, the description is only reported as an
ERROR-level log record (not a warning, and never raised) while the
parsed response is still returned; a fault-free parse is returned with
no log record. -/
theorem send_tcp_amended :
    (∀ fuel : Nat, sendTcp fuel none = some (.str [], [])) ∧
    (∀ (fuel : Nat) (s : List Char) (d : XDict) (desc : Child),
        xml2dictF fuel [] (ignoreUntilXml (unescapeXml s)) = some d →
        xpathRun d faultPath = .ok (some desc) →
        sendTcp fuel (some s) = some (.dict d, [(LogLevel.error, desc)])) ∧
    (∀ (fuel : Nat) (s : List Char) (d : XDict),
        xml2dictF fuel [] (ignoreUntilXml (unescapeXml s)) = some d →
        xpathRun d faultPath = .ok none →
        sendTcp fuel (some s) = some (.dict d, [])) := by
  refine ⟨fun _ => rfl, ?_, ?_⟩
  · intro fuel s d desc h1 h2
    simp [sendTcp, h1, h2]
  · intro fuel s d h1 h2
    simp [sendTcp, h1, h2]

/-- Witness for C5: the fault branch at the concrete response, and the
transport-failure branch. -/
theorem send_tcp_amended_witness :
    sendTcp 20 (some faultResponse)
      = some (.dict faultDict, [(LogLevel.error, Child.leaf "err".data)]) ∧
    sendTcp 5 none = some (.str [], []) :=
  ⟨send_tcp_amended.2.1 20 faultResponse faultDict (Child.leaf "err".data) (by rfl) (by rfl),
   send_tcp_amended.1 5⟩

/-- C6, counterexample.  A device whose construction raises only at the
control-URL extraction step keeps the already-extracted name `TV`:
the claim's "degraded state with the defaults name Unknown, ..." does
not hold for failures after the name has been set. -/
theorem device_partial_failure_counterexample :
    deviceInitF 30 (some rawResponse) (fun _ => some descNoServiceType) "10.0.0.9".data
      = some { ip := "10.0.0.9".data, ssdp_version := 1, port := some 80,
               location := some "http://h:80/d.xml".data,
               name := Child.leaf "TV".data, control_url := none,
               rendering_control_url := none, has_av_transport := false } ∧
    childBeq (Child.leaf "TV".data) (Child.leaf "Unknown".data) = false :=
  ⟨rfl, rfl⟩

/-- C6, amended.  Construction never raises and never discards the
device: a failing step leaves every attribute assigned so far in place
and every later attribute at its default.  A decode failure yields the
full defaults (name Unknown, port and location unset, control URLs none,
has_av_transport false); a failing description fetch keeps location and
port; a control-URL extraction failure keeps the extracted name while
the control URLs stay none and has_av_transport stays false. -/
theorem device_degraded_amended :
    (∀ (fuel : Nat) (fetch : List Char → Option (List Char)) (ip : List Char),
        deviceInitF fuel none fetch ip = some (defaultDevice ip)) ∧
    (∀ (fuel : Nat) (raw ip : List Char) (fetch : List Char → Option (List Char)),
        fetch (getLocationUrl raw) = none →
        deviceInitF fuel (some raw) fetch ip
          = some { defaultDevice ip with
                   location := some (getLocationUrl raw),
                   port := some (getPort (getLocationUrl raw)) }) ∧
    (∀ (fuel : Nat) (raw ip descRaw : List Char) (fetch : List Char → Option (List Char))
        (desc : XDict) (nm : Child) (e : PyErr),
        fetch (getLocationUrl raw) = some descRaw →
        xml2dictF fuel [] descRaw = some desc →
        xpathRun desc friendlyNamePath = .ok (some nm) →
        xpathRun desc (controlUrlPath URN_AVTransport) = .error e →
        deviceInitF fuel (some raw) fetch ip
          = some { defaultDevice ip with
                   location := some (getLocationUrl raw),
                   port := some (getPort (getLocationUrl raw)),
                   name := nm }) := by
  refine ⟨fun _ _ _ => rfl, ?_, ?_⟩
  · intro fuel raw ip fetch h
    simp [deviceInitF, h]
  · intro fuel raw ip descRaw fetch desc nm e h1 h2 h3 h4
    simp [deviceInitF, h1, h2, h3, h4]

/-- Witness for C6: the three degraded shapes at concrete inputs. -/
theorem device_degraded_amended_witness :
    deviceInitF 5 none (fun _ => none) "1.2.3.4".data = some (defaultDevice "1.2.3.4".data) ∧
    deviceInitF 5 (some rawResponse) (fun _ => none) "1.2.3.4".data
      = some { defaultDevice "1.2.3.4".data with
               location := some (getLocationUrl rawResponse),
               port := some (getPort (getLocationUrl rawResponse)) } ∧
    deviceInitF 30 (some rawResponse) (fun _ => some descNoServiceType) "10.0.0.9".data
      = some { defaultDevice "10.0.0.9".data with
               location := some (getLocationUrl rawResponse),
               port := some (getPort (getLocationUrl rawResponse)),
               name := Child.leaf "TV".data } := by
  refine ⟨device_degraded_amended.1 5 _ _, device_degraded_amended.2.1 5 _ _ _ rfl, ?_⟩
  exact device_degraded_amended.2.2 30 rawResponse "10.0.0.9".data descNoServiceType
    (fun _ => some descNoServiceType)
    [("root".data, [Child.node
      [("device".data, [Child.node
        [("friendlyName".data, [Child.leaf "TV".data]),
         ("serviceList".data, [Child.node
           [("service".data, [Child.node [("x".data, [Child.leaf "1".data])]])]])]])]])]
    (Child.leaf "TV".data) PyErr.keyError rfl rfl rfl rfl

/-! ## C9: Content-Length -/

theorem utf8Len_aux : ∀ (l : List Char) (acc : Nat), (∀ c ∈ l, c.utf8Size = 1) →
    l.foldl (fun a c => a + c.utf8Size) acc = acc + l.length
  | [], acc, _ => by simp
  | c :: cs, acc, h => by
    have hc := h c (List.mem_cons_self c cs)
    have ih := utf8Len_aux cs (acc + c.utf8Size) (fun x hx => h x (List.mem_cons_of_mem _ hx))
    rw [List.foldl_cons, ih, hc, List.length_cons]
    omega

/-- C9, counterexample.  With a non-ASCII field value the synthesized
header carries the character count of the payload, which is one less
than the UTF-8 byte count actually transmitted; the byte-count header is
nowhere in the packet. -/
theorem content_length_counterexample :
    (("Content-Length: ".data ++ natRepr (payloadFromTemplate "Play".data
        [("CurrentURI".data, "é".data)] (urnOf devA "Play".data)).length)
      <:+: createPacket devA "Play".data [("CurrentURI".data, "é".data)]) ∧
    utf8Len (payloadFromTemplate "Play".data [("CurrentURI".data, "é".data)]
        (urnOf devA "Play".data))
      = (payloadFromTemplate "Play".data [("CurrentURI".data, "é".data)]
        (urnOf devA "Play".data)).length + 1 ∧
    ¬ (("Content-Length: ".data ++ natRepr (utf8Len (payloadFromTemplate "Play".data
        [("CurrentURI".data, "é".data)] (urnOf devA "Play".data))))
      <:+: createPacket devA "Play".data [("CurrentURI".data, "é".data)]) := by
  refine ⟨?_, by decide, by decide⟩
  simp only [createPacket]
  exact mem_joinCRLF_infix _ _ (List.mem_cons_of_mem _ (List.mem_cons_of_mem _
    (List.mem_cons_of_mem _ (List.mem_cons_of_mem _ (List.mem_cons_of_mem _
      (List.mem_cons_self _ _))))))

/-- C9, amended.  The Content-Length header always carries the
character count of the SOAP payload (`len(payload)`, line 328), which
equals the transmitted UTF-8 byte count exactly when the payload is
ASCII-only; for payloads with non-ASCII characters it understates the
byte count. -/
theorem content_length_amended :
    (∀ (dev : DLNADevice) (action : List Char) (data : List (List Char × List Char)),
        ("Content-Length: ".data
            ++ natRepr (payloadFromTemplate action data (urnOf dev action)).length)
          <:+: createPacket dev action data) ∧
    (∀ l : List Char, (∀ c ∈ l, c.utf8Size = 1) → utf8Len l = l.length) := by
  constructor
  · intro dev action data
    simp only [createPacket]
    exact mem_joinCRLF_infix _ _ (List.mem_cons_of_mem _ (List.mem_cons_of_mem _
      (List.mem_cons_of_mem _ (List.mem_cons_of_mem _ (List.mem_cons_of_mem _
        (List.mem_cons_self _ _))))))
  · intro l h
    simpa [utf8Len] using utf8Len_aux l 0 h

/-- Witness for C9: the ASCII case at a concrete payload. -/
theorem content_length_amended_witness :
    utf8Len "abc".data = ("abc".data).length ∧
    (("Content-Length: ".data ++ natRepr (payloadFromTemplate "Play".data
        [("InstanceID".data, "0".data)] (urnOf devA "Play".data)).length)
      <:+: createPacket devA "Play".data [("InstanceID".data, "0".data)]) :=
  ⟨content_length_amended.2 "abc".data (by decide),
   content_length_amended.1 devA "Play".data [("InstanceID".data, "0".data)]⟩

/-- C10, counterexample.  An extraction step can return a remainder that
is strictly LONGER than its input: on `"<a /><a />"` (length 10) the
self-closing rewrite inflates the string to `"<a>None</a><a>None</a>"`
and the returned remainder `"<a>None</a>"` has length 11. -/
theorem remainder_longer_counterexample :
    (getTagValue "<a /><a />".data).2.2 ≠ [] ∧
    ("<a /><a />".data).length < ((getTagValue "<a /><a />".data).2.2).length := by
  decide

/-- C10, amended.  An extraction step need not shorten the string (the
self-closing rewrite can lengthen the remainder), but every step keeps
at most as many spaces and either strictly reduces the space count (the
rewrite replaces `<tag />`, which contains a space, by `<tag>None</tag>`,
which does not) or strictly shortens the string; by descent on
(space count, length) the conversion of any string to a tree still
terminates: some finite fuel always suffices. -/
theorem parse_terminates_amended :
    (∀ x : List Char, x ≠ [] →
      ((getTagValue x).2.2).count ' ' ≤ x.count ' ' ∧
      (((getTagValue x).2.2).count ' ' < x.count ' ' ∨
        ((getTagValue x).2.2).length < x.length)) ∧
    (∀ (d : XDict) (x : List Char), ∃ n, (xml2dictF n d x).isSome = true) :=
  ⟨rest_dec, fun d x => xml2dictF_total_aux (x.count ' ') x.length x le_rfl le_rfl d⟩

/-- Witness for C10: the step measure at a concrete input, and
termination of the parse of the length-inflating input. -/
theorem parse_terminates_amended_witness :
    (((getTagValue "<b>hi</b>".data).2.2).count ' ' ≤ ("<b>hi</b>".data).count ' ' ∧
      (((getTagValue "<b>hi</b>".data).2.2).count ' ' < ("<b>hi</b>".data).count ' ' ∨
        ((getTagValue "<b>hi</b>".data).2.2).length < ("<b>hi</b>".data).length)) ∧
    (∃ n, (xml2dictF n [] "<a /><a />".data).isSome = true) :=
  ⟨parse_terminates_amended.1 "<b>hi</b>".data (by decide),
   parse_terminates_amended.2 [] "<a /><a />".data⟩

/-- C8.  Invariant, both halves confirmed.  (1) Parsing the plain empty
element `<t></t>` (no textual content, no children) succeeds and yields a
dict in which the key `t` is PRESENT and mapped to the empty list: lines
114-118 call `_dict[tag] = []` before any content check, and an empty
value takes the `continue` of line 118 without appending.  (2) Looking up
a tag that is absent from the current node returns "not found" (`ok none`,
the `tag not in xml_dict` test of line 145) rather than raising a
structural error. -/
theorem empty_tag_invariant :
    (∀ t : List Char, validTag t →
      xml2dictF 2 [] (elemOf t) = some [(t, [])]) ∧
    (∀ (d : XDict) (seg : List Char) (rest : List (List Char)),
      keyLookup ((pySplit '@' seg).headD []) d = none →
      xpathSegs (seg :: rest) (Child.node d) = Except.ok none) := by
  constructor
  · intro t ht
    exact xml2dictF_elem t ht
  · intro d seg rest h
    have hseg : segApply (Child.node d) seg = Except.ok none := by
      unfold segApply
      dsimp only
      rw [h]
    simp only [xpathSegs, hseg]

/-- Witness for C8: the empty element `<a></a>` parses to `{'a': []}`, and
a lookup of the absent tag `zz` returns `ok none`. -/
theorem empty_tag_invariant_witness :
    xml2dictF 2 [] (elemOf ['a']) = some [(['a'], [])] ∧
    xpathSegs ["zz".data] (Child.node [("a".data, [])]) = Except.ok none :=
  ⟨empty_tag_invariant.1 ['a'] (by decide),
   empty_tag_invariant.2 [("a".data, [])] "zz".data [] (by rfl)⟩

end Dlnap
